import Mathlib

/-!
Verification of the Express middleware pipeline assembled in `src/app.js` of the
Natours repository.  The pipeline is embedded shallowly: each `app.use` /
`app.post` / `app.options` / `app.all` registration of `app.js` becomes one
`Stage`; the registration order becomes the list `pipeline`; request processing
becomes the driver `runStages`, which threads the per-request context
(`ReqState`), the shared rate-limiter state (`LimiterState`) and a trace of the
stages that applied to the request.  Third-party middleware bodies
(express-rate-limit, express.json, express-mongo-sanitize, xss-clean, hpp) are
not part of the repository; where a claim depends on their behaviour they are
modelled from the specification, as marked in the doc comments.
-/

namespace Natours

/-- HTTP methods relevant to the pipeline. -/
inductive Method where
  | GET
  | HEAD
  | POST
  | PUT
  | PATCH
  | DELETE
  | OPTIONS
deriving DecidableEq, Repr

/-- Structured (parsed) request data: a JSON-like tree of string leaves and
objects with string keys, as produced by the body parsers. -/
inductive JValue where
  | leaf (s : String) : JValue
  | obj (fields : List (String × JValue)) : JValue
deriving Repr

/-- Modelled from the spec: the script-injection sanitizer escapes embedded
markup in string values ("recursively escape/strip embedded markup"). -/
def escapeMarkup (s : String) : String :=
  (s.replace "<" "&lt;").replace ">" "&gt;"

mutual

/-- Modelled from the spec: the injection-sanitization stage recursively strips
keys beginning with the reserved document-store operator marker (the Mongo
operator prefix character) from structured input (express-mongo-sanitize). -/
def sanitizeV : JValue → JValue
  | .leaf s => .leaf s
  | .obj fs => .obj (sanitizeFs fs)

/-- Field-list part of `sanitizeV`: drop every field whose key begins with the
operator marker, and sanitize the kept values recursively. -/
def sanitizeFs : List (String × JValue) → List (String × JValue)
  | [] => []
  | (k, v) :: rest =>
      if k.startsWith "$" then sanitizeFs rest
      else (k, sanitizeV v) :: sanitizeFs rest

end

mutual

/-- Modelled from the spec: the script-injection sanitization stage maps
`escapeMarkup` over every string value, leaving keys and structure intact
(xss-clean). -/
def xssV : JValue → JValue
  | .leaf s => .leaf (escapeMarkup s)
  | .obj fs => .obj (xssFields fs)

/-- Field-list part of `xssV`. -/
def xssFields : List (String × JValue) → List (String × JValue)
  | [] => []
  | (k, v) :: rest => (k, xssV v) :: xssFields rest

end

mutual

/-- `true` iff some key anywhere in the structure begins with the reserved
operator marker. -/
def jHasOpKey : JValue → Bool
  | .leaf _ => false
  | .obj fs => fieldsHaveOpKey fs

/-- Field-list part of `jHasOpKey`. -/
def fieldsHaveOpKey : List (String × JValue) → Bool
  | [] => false
  | (k, v) :: rest => k.startsWith "$" || jHasOpKey v || fieldsHaveOpKey rest

end

/-- Query strings are modelled as the flat key/value multimap the query parser
hands to the middleware chain. -/
abbrev Query := List (String × String)

/-- Modelled from the spec: injection sanitization on the query map drops every
pair whose key begins with the operator marker. -/
def sanitizeQuery (q : Query) : Query :=
  q.filter (fun kv => !(kv.1.startsWith "$"))

/-- Modelled from the spec: script-injection sanitization on the query map
escapes markup in values, leaving keys untouched. -/
def xssQuery (q : Query) : Query :=
  q.map (fun kv => (kv.1, escapeMarkup kv.2))

/-- The parameter-pollution allow-list passed to `hpp` in `src/app.js`
(lines 91-102). -/
def hppWhitelist : List String :=
  ["duration", "ratingAverage", "ratingQuantity", "maxGroupSize", "difficulty", "price"]

/-- Modelled from the spec: the parameter-pollution guard keeps, for every key
not on the allow-list, only the last occurrence among duplicates; allow-listed
keys are permitted to repeat (hpp). -/
def hppApply (wl : List String) : Query → Query
  | [] => []
  | kv :: rest =>
      if kv.1 ∈ wl then kv :: hppApply wl rest
      else if rest.any (fun p => p.1 == kv.1) then hppApply wl rest
      else kv :: hppApply wl rest

/-- Rate limiter configuration from `src/app.js` lines 60-64: `windowMs`. -/
def windowMs : Nat := 60 * 60 * 1000

/-- Rate limiter configuration from `src/app.js` lines 60-64: `max`. -/
def maxRequests : Nat := 100

/-- Rate limiter configuration from `src/app.js` lines 60-64: `message`. -/
def rateLimitMessage : String :=
  "Too many requests from this IP, please try again in one hour!"

/-- Shared rate-limiter state for one client identity: start of the current
window and number of requests counted in it. -/
structure LimiterState where
  windowStart : Nat
  count : Nat
deriving DecidableEq, Repr

/-- Modelled from the spec: one rate-limiter transition (express-rate-limit).
At time `t`, if the window has elapsed the counter resets and the request is
counted in a fresh window; otherwise the counter is incremented.  The request
is admitted iff the new count is within `maxReq`. -/
def limiterStep (winMs maxReq : Nat) (s : LimiterState) (t : Nat) : LimiterState × Bool :=
  if s.windowStart + winMs ≤ t then
    (⟨t, 1⟩, decide (1 ≤ maxReq))
  else
    (⟨s.windowStart, s.count + 1⟩, decide (s.count + 1 ≤ maxReq))

/-- The body-size cap of the generic parsers: the string limit option of
`src/app.js` lines 76-81 in bytes. -/
def bodyLimitBytes : Nat := 10 * 1024

/-- The annotation the body stages leave on the request context. -/
inductive BodyAnn where
  | unparsed (bytes : List Nat) : BodyAnn
  | rawBuffered (bytes : List Nat) : BodyAnn
  | parsed (v : JValue) : BodyAnn
deriving Repr

/-- The transport-layer bytes still visible in a body annotation; `none` once
the body has been replaced by a parsed structure. -/
def BodyAnn.bytesOf : BodyAnn → Option (List Nat)
  | .unparsed bs => some bs
  | .rawBuffered bs => some bs
  | .parsed _ => none

/-- A JavaScript value as stored by the context-annotation stage: either a
string or a (named) function object. -/
inductive JsVal where
  | str (s : String) : JsVal
  | func (name : String) : JsVal
deriving DecidableEq, Repr

/-- An incoming HTTP request (transport-layer data). -/
structure Request where
  method : Method
  path : String
  originalUrl : String
  contentType : String
  rawBody : List Nat
  query : Query
  time : Nat
deriving Repr

/-- The mutable per-request context threaded through the stages. -/
structure ReqState where
  body : BodyAnn
  query : Query
  cookiesParsed : Bool
  requestedAt : Option JsVal
deriving Repr

/-- The context at request arrival: transport body unparsed, query as decoded
from the URL, nothing else annotated. -/
def initState (req : Request) : ReqState :=
  ⟨.unparsed req.rawBody, req.query, false, none⟩

/-- A response emitted by a stage or handler. -/
structure Response where
  status : Nat
  body : String
deriving DecidableEq, Repr

/-- The error object of `utils/appError` as used in `src/app.js` line 124:
`AppError(message, statusCode)`. -/
structure AppErr where
  statusCode : Nat
  message : String
deriving DecidableEq, Repr

/-- Express mount-path matching: a middleware mounted at `m` runs for path `p`
iff `m` is the root mount, `p` equals `m`, or `p` extends `m` at a path
separator. -/
def mountMatches (m p : String) : Bool :=
  decide (m = "/") || decide (p = m) || List.isPrefixOf (m.data ++ [ '/' ]) p.data

/-- The collaborators of the pipeline: static asset store, body decoders and
route handlers.  Routers receive the request and the context prepared by the
middleware chain and either take ownership (`some` response) or fall through. -/
structure Env where
  isDevelopment : Bool
  staticFile : String → Option String
  decodeJson : List Nat → Option JValue
  decodeForm : List Nat → Option JValue
  webhookCheckout : Request → BodyAnn → Response
  viewRouter : Request → ReqState → Option Response
  tourRouter : Request → ReqState → Option Response
  userRouter : Request → ReqState → Option Response
  reviewRouter : Request → ReqState → Option Response
  bookingRouter : Request → ReqState → Option Response

/-- One stage per registration in `src/app.js`, in source order. -/
inductive Stage where
  | staticFiles
  | corsAll
  | corsPreflight
  | helmetHeaders
  | morganLog
  | rateLimiter
  | webhookRaw
  | jsonBody
  | formBody
  | cookieParse
  | mongoSan
  | xssClean
  | hppGuard
  | compress
  | requestStamp
  | viewRoutes
  | tourRoutes
  | userRoutes
  | reviewRoutes
  | bookingRoutes
  | notFound
  | errorFunnel
deriving DecidableEq, Repr

/-- The registration order of `src/app.js` lines 27-127; the `morgan` logger is
registered only when the environment is `development` (line 55). -/
def pipeline (isDev : Bool) : List Stage :=
  [.staticFiles, .corsAll, .corsPreflight, .helmetHeaders]
    ++ (if isDev then [.morganLog] else [])
    ++ [.rateLimiter, .webhookRaw, .jsonBody, .formBody, .cookieParse, .mongoSan,
        .xssClean, .hppGuard, .compress, .requestStamp, .viewRoutes, .tourRoutes,
        .userRoutes, .reviewRoutes, .bookingRoutes, .notFound, .errorFunnel]

/-- Express-level matching: whether a registration runs for a request at all.
Plain `app.use` middleware matches every request under its mount path;
`app.options` matches OPTIONS requests; `app.post` matches POST requests at
its exact path; the error handler is skipped on the normal (non-error) path. -/
def stageApplies (req : Request) : Stage → Bool
  | .corsPreflight => decide (req.method = Method.OPTIONS)
  | .rateLimiter => mountMatches "/api" req.path
  | .webhookRaw =>
      decide (req.method = Method.POST) && decide (req.path = "/webhook-checkout")
  | .tourRoutes => mountMatches "/api/v1/tours" req.path
  | .userRoutes => mountMatches "/api/v1/users" req.path
  | .reviewRoutes => mountMatches "/api/v1/reviews" req.path
  | .bookingRoutes => mountMatches "/api/v1/bookings" req.path
  | .errorFunnel => false
  | _ => true

/-- The effect of one applying stage: pass on (possibly updated) state, emit a
response, or raise an error towards the terminal error stage. -/
inductive Step where
  | next (st : ReqState) (ls : LimiterState) : Step
  | done (r : Response) (ls : LimiterState) : Step
  | raise (e : AppErr) (ls : LimiterState) : Step

/-- The semantics of each registration of `src/app.js`, in terms of the request
context and the limiter state.  Stages whose bodies live in third-party
libraries follow the spec contracts (see the definitions above). -/
def stageStep (env : Env) (req : Request) : Stage → ReqState → LimiterState → Step
  | .staticFiles, st, ls =>
      if req.method = Method.GET ∨ req.method = Method.HEAD then
        match env.staticFile req.path with
        | some content => .done ⟨200, content⟩ ls
        | none => .next st ls
      else .next st ls
  | .corsAll, st, ls =>
      if req.method = Method.OPTIONS then .done ⟨204, ""⟩ ls else .next st ls
  | .corsPreflight, _, ls => .done ⟨204, ""⟩ ls
  | .helmetHeaders, st, ls => .next st ls
  | .morganLog, st, ls => .next st ls
  | .rateLimiter, st, ls =>
      let r := limiterStep windowMs maxRequests ls req.time
      if r.2 then .next st r.1 else .done ⟨429, rateLimitMessage⟩ r.1
  | .webhookRaw, st, ls =>
      let b := if req.contentType = "application/json"
        then BodyAnn.rawBuffered req.rawBody else st.body
      .done (env.webhookCheckout req b) ls
  | .jsonBody, st, ls =>
      if req.contentType = "application/json" then
        if bodyLimitBytes < req.rawBody.length then
          .raise ⟨413, "request entity too large"⟩ ls
        else
          match env.decodeJson req.rawBody with
          | some v => .next { st with body := .parsed v } ls
          | none => .raise ⟨400, "invalid body"⟩ ls
      else .next st ls
  | .formBody, st, ls =>
      if req.contentType = "application/x-www-form-urlencoded" then
        if bodyLimitBytes < req.rawBody.length then
          .raise ⟨413, "request entity too large"⟩ ls
        else
          match env.decodeForm req.rawBody with
          | some v => .next { st with body := .parsed v } ls
          | none => .raise ⟨400, "invalid body"⟩ ls
      else .next st ls
  | .cookieParse, st, ls => .next { st with cookiesParsed := true } ls
  | .mongoSan, st, ls =>
      .next { st with
        body := match st.body with
          | .parsed v => .parsed (sanitizeV v)
          | b => b,
        query := sanitizeQuery st.query } ls
  | .xssClean, st, ls =>
      .next { st with
        body := match st.body with
          | .parsed v => .parsed (xssV v)
          | b => b,
        query := xssQuery st.query } ls
  | .hppGuard, st, ls => .next { st with query := hppApply hppWhitelist st.query } ls
  | .compress, st, ls => .next st ls
  | .requestStamp, st, ls =>
      .next { st with requestedAt := some (JsVal.func "toISOString") } ls
  | .viewRoutes, st, ls =>
      match env.viewRouter req st with
      | some r => .done r ls
      | none => .next st ls
  | .tourRoutes, st, ls =>
      match env.tourRouter req st with
      | some r => .done r ls
      | none => .next st ls
  | .userRoutes, st, ls =>
      match env.userRouter req st with
      | some r => .done r ls
      | none => .next st ls
  | .reviewRoutes, st, ls =>
      match env.reviewRouter req st with
      | some r => .done r ls
      | none => .next st ls
  | .bookingRoutes, st, ls =>
      match env.bookingRouter req st with
      | some r => .done r ls
      | none => .next st ls
  | .notFound, _, ls =>
      .raise ⟨404, "Cannot find " ++ req.originalUrl ++ " on this server"⟩ ls
  | .errorFunnel, st, ls => .next st ls

/-- The terminal fate of a request: a response emitted by a stage or handler,
or an error funneled to the terminal error stage (`globalErrorHandler`). -/
inductive Outcome where
  | handled (r : Response) : Outcome
  | erred (e : AppErr) : Outcome
deriving DecidableEq, Repr

/-- Processing result: the outcome, the limiter state afterwards, and the list
of registrations that applied to the request, in order. -/
structure Result where
  outcome : Outcome
  limiter : LimiterState
  trace : List Stage
deriving DecidableEq, Repr

/-- The driver: walk the registration list, skipping stages that do not match
the request, and stop at the first response or raised error.  The empty-list
case is unreachable from `pipeline` because the catch-all `notFound` stage
always applies; it is given an arbitrary server-error outcome. -/
def runStages (env : Env) (req : Request) :
    List Stage → ReqState → LimiterState → List Stage → Result
  | [], _, ls, tr => ⟨.erred ⟨500, "unreachable"⟩, ls, tr⟩
  | s :: rest, st, ls, tr =>
      if stageApplies req s then
        match stageStep env req s st ls with
        | .next st' ls' => runStages env req rest st' ls' (tr ++ [s])
        | .done r ls' => ⟨.handled r, ls', tr ++ [s]⟩
        | .raise e ls' => ⟨.erred e, ls', tr ++ [s]⟩
      else runStages env req rest st ls tr

/-- Process one request through the whole pipeline of `src/app.js`. -/
def process (env : Env) (ls : LimiterState) (req : Request) : Result :=
  runStages env req (pipeline env.isDevelopment) (initState req) ls []

/-- The stage taxonomy of the specification (section 4.1); several
registrations of `src/app.js` can realise one spec stage. -/
inductive SpecStage where
  | sStatic
  | sCors
  | sHelmet
  | sDevLog
  | sRateLimit
  | sRawWebhook
  | sBodyParse
  | sCookie
  | sNoSql
  | sXss
  | sHpp
  | sCompress
  | sStamp
  | sRoute
  | sNotFound
  | sError
deriving DecidableEq, Repr

/-- Which spec stage each registration of `src/app.js` realises: the CORS
policy stage comprises the blanket `cors()` middleware and the preflight
registration; body parsing comprises the JSON and URL-encoded parsers; route
dispatch comprises the five mounted routers. -/
def specStageOf : Stage → SpecStage
  | .staticFiles => .sStatic
  | .corsAll => .sCors
  | .corsPreflight => .sCors
  | .helmetHeaders => .sHelmet
  | .morganLog => .sDevLog
  | .rateLimiter => .sRateLimit
  | .webhookRaw => .sRawWebhook
  | .jsonBody => .sBodyParse
  | .formBody => .sBodyParse
  | .cookieParse => .sCookie
  | .mongoSan => .sNoSql
  | .xssClean => .sXss
  | .hppGuard => .sHpp
  | .compress => .sCompress
  | .requestStamp => .sStamp
  | .viewRoutes => .sRoute
  | .tourRoutes => .sRoute
  | .userRoutes => .sRoute
  | .reviewRoutes => .sRoute
  | .bookingRoutes => .sRoute
  | .notFound => .sNotFound
  | .errorFunnel => .sError

/-- The spec's required total stage order (section 4.1, stages 1-16). -/
def specOrder : List SpecStage :=
  [.sStatic, .sCors, .sHelmet, .sDevLog, .sRateLimit, .sRawWebhook, .sBodyParse,
   .sCookie, .sNoSql, .sXss, .sHpp, .sCompress, .sStamp, .sRoute, .sNotFound, .sError]

/-- The spec's required order with the development-only logging stage absent,
as in a production configuration. -/
def specOrderProd : List SpecStage :=
  [.sStatic, .sCors, .sHelmet, .sRateLimit, .sRawWebhook, .sBodyParse,
   .sCookie, .sNoSql, .sXss, .sHpp, .sCompress, .sStamp, .sRoute, .sNotFound, .sError]

/-- The limiter state a step hands on. -/
def Step.lsOf : Step → LimiterState
  | .next _ ls => ls
  | .done _ ls => ls
  | .raise _ ls => ls

/-- A concrete environment used to instantiate theorems with hypotheses:
production mode, no static files, decoders that accept everything as the empty
object, routers that match nothing, and a webhook handler answering 200. -/
def sampleEnv : Env where
  isDevelopment := false
  staticFile := fun _ => none
  decodeJson := fun _ => some (JValue.obj [])
  decodeForm := fun _ => some (JValue.obj [])
  webhookCheckout := fun _ _ => ⟨200, "ok"⟩
  viewRouter := fun _ _ => none
  tourRouter := fun _ _ => none
  userRouter := fun _ _ => none
  reviewRouter := fun _ _ => none
  bookingRouter := fun _ _ => none

/-- A concrete GET request to the site root. -/
def reqHome : Request :=
  ⟨.GET, "/", "/", "", [], [], 0⟩

/-- A concrete POST to the payment-webhook path with a JSON content type. -/
def reqWebhook : Request :=
  ⟨.POST, "/webhook-checkout", "/webhook-checkout", "application/json", [1, 2, 3], [], 0⟩

/-- A concrete OPTIONS (preflight) request to the payment-webhook path. -/
def reqWebhookOptions : Request :=
  ⟨.OPTIONS, "/webhook-checkout", "/webhook-checkout", "application/json", [], [], 0⟩

/-- A concrete JSON POST to the payment-webhook path whose body is one byte
over the 10 KB cap of the generic parsers. -/
def reqWebhookBig : Request :=
  ⟨.POST, "/webhook-checkout", "/webhook-checkout", "application/json",
   List.replicate 10241 0, [], 0⟩

/-- A concrete GET request matching no route. -/
def reqMissing : Request :=
  ⟨.GET, "/nope", "/nope?q=1", "", [], [], 0⟩

/-- A concrete GET request to the payment-webhook path. -/
def reqWebhookGet : Request :=
  ⟨.GET, "/webhook-checkout", "/webhook-checkout", "", [], [], 0⟩

/-- A concrete JSON POST to an ordinary path whose body is one byte over the
10 KB cap. -/
def reqBigJson : Request :=
  ⟨.POST, "/big", "/big", "application/json", List.replicate 10241 7, [], 0⟩

/-- A concrete small JSON POST to an ordinary path. -/
def reqSmallJson : Request :=
  ⟨.POST, "/small", "/small", "application/json", [123], [], 0⟩

/-- `true` iff the query map contains a key beginning with the reserved
operator marker. -/
def queryHasOpKey (q : Query) : Bool :=
  q.any (fun kv => kv.1.startsWith "$")

/-- `true` iff the body annotation carries structured data containing a key
that begins with the reserved operator marker. -/
def bodyHasOpKey : BodyAnn → Bool
  | .parsed v => jHasOpKey v
  | _ => false

/-- A structured body with an operator-marker key and markup, used to
instantiate the sanitization theorems. -/
def vAttack : JValue :=
  .obj [("$gt", .leaf "7"), ("name", .leaf "<b>hi")]

/-- A query with an operator-marker key and a duplicated key, used to
instantiate the sanitization theorems. -/
def qAttack : Query :=
  [("$where", "1"), ("sort", "price"), ("sort", "name")]

/-- The request context holding `vAttack` and `qAttack`. -/
def stAttack : ReqState :=
  ⟨.parsed vAttack, qAttack, false, none⟩

/-- `stAttack` after the injection-sanitization stage. -/
def stAttack1 : ReqState :=
  ⟨.parsed (sanitizeV vAttack), sanitizeQuery qAttack, false, none⟩

/-- `stAttack1` after the script-injection sanitization stage. -/
def stAttack2 : ReqState :=
  ⟨.parsed (xssV (sanitizeV vAttack)), xssQuery (sanitizeQuery qAttack), false, none⟩

/-- `stAttack2` after the parameter-pollution guard. -/
def stAttack3 : ReqState :=
  ⟨.parsed (xssV (sanitizeV vAttack)),
   hppApply hppWhitelist (xssQuery (sanitizeQuery qAttack)), false, none⟩

/-- **C2**: the pipeline registers its stages in exactly the spec's required
total order.  The first two conjuncts pin the registration order of
`src/app.js` in both environments; the last two state that, collapsing
adjacent registrations realising the same spec stage, the order is exactly the
spec's sixteen-stage order (with the development-only logging stage present
exactly in the development configuration). -/
theorem pipeline_registers_spec_order :
    pipeline true =
      [.staticFiles, .corsAll, .corsPreflight, .helmetHeaders, .morganLog,
       .rateLimiter, .webhookRaw, .jsonBody, .formBody, .cookieParse, .mongoSan,
       .xssClean, .hppGuard, .compress, .requestStamp, .viewRoutes, .tourRoutes,
       .userRoutes, .reviewRoutes, .bookingRoutes, .notFound, .errorFunnel] ∧
    pipeline false =
      [.staticFiles, .corsAll, .corsPreflight, .helmetHeaders,
       .rateLimiter, .webhookRaw, .jsonBody, .formBody, .cookieParse, .mongoSan,
       .xssClean, .hppGuard, .compress, .requestStamp, .viewRoutes, .tourRoutes,
       .userRoutes, .reviewRoutes, .bookingRoutes, .notFound, .errorFunnel] ∧
    ((pipeline true).map specStageOf).destutter (· ≠ ·) = specOrder ∧
    ((pipeline false).map specStageOf).destutter (· ≠ ·) = specOrderProd := by
  refine ⟨rfl, rfl, ?_, ?_⟩ <;> decide

/-- **C8**: the context-annotation stage of `src/app.js` line 109 writes
`new Date().toISOString` — the un-invoked method reference, a function object —
into `req.requestedAt`, for every request and state, and never fails the
request (it always passes control on).  Consequently the annotation is never a
string timestamp: the code contradicts the spec's "attach a request-received
timestamp"; the intended code is `new Date().toISOString()`. -/
theorem requestStamp_stores_method_reference (env : Env) (req : Request)
    (st : ReqState) (ls : LimiterState) :
    stageStep env req .requestStamp st ls =
      .next { st with requestedAt := some (JsVal.func "toISOString") } ls ∧
    ∀ s : String, (JsVal.func "toISOString") ≠ JsVal.str s := by
  refine ⟨rfl, ?_⟩
  intro s h
  cases h

/-- Every stage except the rate limiter passes the limiter state through
unchanged. -/
theorem stageStep_preserves_limiter (env : Env) (req : Request) (s : Stage)
    (hs : s ≠ .rateLimiter) (st : ReqState) (ls : LimiterState) :
    (∃ st', stageStep env req s st ls = .next st' ls) ∨
    (∃ r, stageStep env req s st ls = .done r ls) ∨
    (∃ e, stageStep env req s st ls = .raise e ls) := by
  cases s <;>
    first
      | exact absurd rfl hs
      | (simp only [stageStep]; (repeat' split) <;> simp)

/-- The driver only appends to the trace accumulator. -/
theorem runStages_trace_extend (env : Env) (req : Request) :
    ∀ (L : List Stage) (st : ReqState) (ls : LimiterState) (tr : List Stage),
    ∃ us, (runStages env req L st ls tr).trace = tr ++ us := by
  intro L
  induction L with
  | nil =>
    intro st ls tr
    exact ⟨[], by simp [runStages]⟩
  | cons s rest ih =>
    intro st ls tr
    by_cases h : stageApplies req s = true
    · cases hstep : stageStep env req s st ls with
      | next st' ls' =>
        obtain ⟨us, hus⟩ := ih st' ls' (tr ++ [s])
        exact ⟨[s] ++ us, by simp [runStages, h, hstep, hus]⟩
      | done r ls' => exact ⟨[s], by simp [runStages, h, hstep]⟩
      | raise e ls' => exact ⟨[s], by simp [runStages, h, hstep]⟩
    · obtain ⟨us, hus⟩ := ih st ls tr
      exact ⟨us, by simp [runStages, h, hus]⟩

/-- A registration that does not match the request never enters the trace. -/
theorem runStages_notApplies_notMem (env : Env) (req : Request) (s₀ : Stage)
    (h0 : stageApplies req s₀ = false) :
    ∀ (L : List Stage) (st : ReqState) (ls : LimiterState) (tr : List Stage),
    s₀ ∉ tr → s₀ ∉ (runStages env req L st ls tr).trace := by
  intro L
  induction L with
  | nil =>
    intro st ls tr htr
    simpa [runStages] using htr
  | cons s rest ih =>
    intro st ls tr htr
    by_cases h : stageApplies req s = true
    · have hne : s₀ ≠ s := by
        intro he
        subst he
        simp [h0] at h
      have htr' : s₀ ∉ tr ++ [s] := by
        simp [htr, hne]
      cases hstep : stageStep env req s st ls with
      | next st' ls' =>
        simpa [runStages, h, hstep] using ih st' ls' (tr ++ [s]) htr'
      | done r ls' => simpa [runStages, h, hstep] using htr'
      | raise e ls' => simpa [runStages, h, hstep] using htr'
    · simpa [runStages, h] using ih st ls tr htr

/-- If the rate limiter does not match the request, the whole pipeline leaves
the limiter state unchanged. -/
theorem runStages_limiter_unchanged (env : Env) (req : Request)
    (h0 : stageApplies req .rateLimiter = false) :
    ∀ (L : List Stage) (st : ReqState) (ls : LimiterState) (tr : List Stage),
    (runStages env req L st ls tr).limiter = ls := by
  intro L
  induction L with
  | nil =>
    intro st ls tr
    simp [runStages]
  | cons s rest ih =>
    intro st ls tr
    by_cases h : stageApplies req s = true
    · have hne : s ≠ .rateLimiter := by
        intro he
        subst he
        simp [h0] at h
      have hls := stageStep_preserves_limiter env req s hne st ls
      cases hstep : stageStep env req s st ls with
      | next st' ls' =>
        have hlseq : ls' = ls := by
          rcases hls with ⟨st'', heq⟩ | ⟨r', heq⟩ | ⟨e', heq⟩ <;> rw [hstep] at heq <;>
            cases heq <;> rfl
        simp only [runStages, h, if_true, hstep]
        rw [hlseq]
        exact ih st' ls (tr ++ [s])
      | done r ls' =>
        have hlseq : ls' = ls := by
          rcases hls with ⟨st'', heq⟩ | ⟨r', heq⟩ | ⟨e', heq⟩ <;> rw [hstep] at heq <;>
            cases heq <;> rfl
        simp [runStages, h, hstep, hlseq]
      | raise e ls' =>
        have hlseq : ls' = ls := by
          rcases hls with ⟨st'', heq⟩ | ⟨r', heq⟩ | ⟨e', heq⟩ <;> rw [hstep] at heq <;>
            cases heq <;> rfl
        simp [runStages, h, hstep, hlseq]
    · simpa [runStages, h] using ih st ls tr

/-- **C3**: the rate limiter (configuration of `src/app.js` lines 60-65,
behaviour modelled from the spec contract for express-rate-limit) applies only
to requests under the `/api` mount: for any other path the limiter stage never
runs and the shared counter is untouched.  Where it applies: within a window a
request is admitted while the new count stays within 100; the request taking
the count past 100 (in particular the 101st) is short-circuited with status
429 and the fixed message of line 63; once the 60-minute window has elapsed
the counter resets and the request is admitted into a fresh window. -/
theorem rateLimiter_contract :
    (∀ (env : Env) (ls : LimiterState) (req : Request),
        mountMatches "/api" req.path = false →
        Stage.rateLimiter ∉ (process env ls req).trace ∧
          (process env ls req).limiter = ls) ∧
    (∀ (env : Env) (req : Request) (st : ReqState) (ls : LimiterState),
        req.time < ls.windowStart + windowMs → ls.count + 1 ≤ maxRequests →
        stageStep env req .rateLimiter st ls =
          .next st ⟨ls.windowStart, ls.count + 1⟩) ∧
    (∀ (env : Env) (req : Request) (st : ReqState) (ls : LimiterState),
        req.time < ls.windowStart + windowMs → maxRequests ≤ ls.count →
        stageStep env req .rateLimiter st ls =
          .done ⟨429, rateLimitMessage⟩ ⟨ls.windowStart, ls.count + 1⟩) ∧
    (∀ (env : Env) (req : Request) (st : ReqState) (ls : LimiterState),
        ls.windowStart + windowMs ≤ req.time →
        stageStep env req .rateLimiter st ls = .next st ⟨req.time, 1⟩) := by
  refine ⟨?_, ?_, ?_, ?_⟩
  · intro env ls req hm
    have h0 : stageApplies req .rateLimiter = false := hm
    exact ⟨runStages_notApplies_notMem env req _ h0 _ _ _ _ (by simp),
      runStages_limiter_unchanged env req h0 _ _ _ _⟩
  · intro env req st ls hwin hcnt
    have hnot : ¬(ls.windowStart + windowMs ≤ req.time) := by omega
    simp [stageStep, limiterStep, hnot, hcnt]
  · intro env req st ls hwin hcnt
    have hnot : ¬(ls.windowStart + windowMs ≤ req.time) := by omega
    have hgt : ¬(ls.count + 1 ≤ maxRequests) := by omega
    simp [stageStep, limiterStep, hnot, hgt]
  · intro env req st ls hwin
    have h1 : 1 ≤ maxRequests := by
      simp [maxRequests]
    simp [stageStep, limiterStep, hwin, h1]

/-- Witness for C3 at concrete inputs: a request to the site root is never
rate-limited, and an API client at count 100 inside the window is denied with
the fixed 429 message. -/
theorem rateLimiter_contract_witness :
    (Stage.rateLimiter ∉ (process sampleEnv ⟨0, 0⟩ reqHome).trace ∧
      (process sampleEnv ⟨0, 0⟩ reqHome).limiter = ⟨0, 0⟩) ∧
    stageStep sampleEnv reqHome .rateLimiter ⟨.unparsed [], [], false, none⟩ ⟨0, 40⟩ =
      .next ⟨.unparsed [], [], false, none⟩ ⟨0, 41⟩ ∧
    stageStep sampleEnv reqHome .rateLimiter ⟨.unparsed [], [], false, none⟩ ⟨0, 100⟩ =
      .done ⟨429, rateLimitMessage⟩ ⟨0, 101⟩ ∧
    stageStep sampleEnv { reqHome with time := 4000000 } .rateLimiter
        ⟨.unparsed [], [], false, none⟩ ⟨0, 100⟩ =
      .next ⟨.unparsed [], [], false, none⟩ ⟨4000000, 1⟩ := by
  refine ⟨rateLimiter_contract.1 sampleEnv ⟨0, 0⟩ reqHome (by decide), ?_, ?_, ?_⟩
  · exact rateLimiter_contract.2.1 sampleEnv reqHome _ ⟨0, 40⟩ (by decide) (by decide)
  · exact rateLimiter_contract.2.2.1 sampleEnv reqHome _ ⟨0, 100⟩ (by decide) (by decide)
  · exact rateLimiter_contract.2.2.2 sampleEnv { reqHome with time := 4000000 } _ ⟨0, 100⟩
      (by decide)

/-- The parameter-pollution guard only ever drops pairs: its output is a
sublist of its input. -/
theorem hppApply_sublist (wl : List String) :
    ∀ q : Query, (hppApply wl q).Sublist q := by
  intro q
  induction q with
  | nil => simp [hppApply]
  | cons kv rest ih =>
    simp only [hppApply]
    by_cases h1 : kv.1 ∈ wl
    · simp only [h1, if_true]
      exact List.Sublist.cons₂ kv ih
    · simp only [h1, if_false]
      by_cases h2 : rest.any (fun p => p.1 == kv.1) = true
      · simp only [h2, if_true]
        exact List.Sublist.cons kv ih
      · simp only [h2, if_false]
        exact List.Sublist.cons₂ kv ih

/-- For a key off the allow-list, the parameter-pollution guard keeps at most
one occurrence. -/
theorem hppApply_countP_le_one (wl : List String) (k : String) (hk : k ∉ wl) :
    ∀ q : Query, (hppApply wl q).countP (fun p => p.1 == k) ≤ 1 := by
  intro q
  induction q with
  | nil => simp [hppApply]
  | cons kv rest ih =>
    simp only [hppApply]
    by_cases h1 : kv.1 ∈ wl
    · have hne : (kv.1 == k) = false := by
        rw [beq_eq_false_iff_ne]
        intro he
        exact hk (he ▸ h1)
      simpa [h1, List.countP_cons, hne] using ih
    · by_cases h2 : rest.any (fun p => p.1 == kv.1) = true
      · simpa [h1, h2] using ih
      · have h2' : (rest.any fun p => p.1 == kv.1) = false := by
          cases hb : rest.any fun p => p.1 == kv.1
          · rfl
          · exact absurd hb h2
        rw [if_neg h1, if_neg (by simp [h2']), List.countP_cons]
        by_cases h3 : (kv.1 == k) = true
        · have hkk : kv.1 = k := by simpa using h3
          have hrest : rest.countP (fun p => p.1 == k) = 0 := by
            rw [List.countP_eq_zero]
            intro p hp hpk
            apply h2
            rw [List.any_eq_true]
            exact ⟨p, hp, by rw [hkk]; exact hpk⟩
          have hsub := List.Sublist.countP_le (fun p => p.1 == k) (hppApply_sublist wl rest)
          rw [hrest] at hsub
          rw [if_pos h3]
          omega
        · have h3' : (kv.1 == k) = false := by
            simpa using h3
          simpa [h3'] using ih

/-- For a key on the allow-list, the parameter-pollution guard keeps every
occurrence. -/
theorem hppApply_filter_wl (wl : List String) (k : String) (hk : k ∈ wl) :
    ∀ q : Query,
    (hppApply wl q).filter (fun p => p.1 == k) = q.filter (fun p => p.1 == k) := by
  intro q
  induction q with
  | nil => simp [hppApply]
  | cons kv rest ih =>
    simp only [hppApply]
    by_cases h1 : kv.1 ∈ wl
    · simp [List.filter_cons, h1, ih]
    · by_cases h2 : rest.any (fun p => p.1 == kv.1) = true
      · have hne : (kv.1 == k) = false := by
          rw [beq_eq_false_iff_ne]
          intro he
          exact h1 (he ▸ hk)
        simp [h1, h2, List.filter_cons, hne, ih]
      · simp [h1, h2, List.filter_cons, ih]

/-- **C7**: the parameter-pollution guard of `src/app.js` lines 91-102
(behaviour modelled from the spec contract for hpp) is configured with exactly
the allow-list {duration, ratingAverage, ratingQuantity, maxGroupSize,
difficulty, price}; for every query and every key off that allow-list at most
a single occurrence survives the guard, while keys on the allow-list keep all
their occurrences. -/
theorem hpp_guard_contract :
    hppWhitelist =
      ["duration", "ratingAverage", "ratingQuantity", "maxGroupSize",
       "difficulty", "price"] ∧
    (∀ (q : Query) (k : String), k ∉ hppWhitelist →
        (hppApply hppWhitelist q).countP (fun p => p.1 == k) ≤ 1) ∧
    (∀ (q : Query) (k : String), k ∈ hppWhitelist →
        (hppApply hppWhitelist q).filter (fun p => p.1 == k) =
          q.filter (fun p => p.1 == k)) := by
  refine ⟨rfl, ?_, ?_⟩
  · intro q k hk
    exact hppApply_countP_le_one hppWhitelist k hk q
  · intro q k hk
    exact hppApply_filter_wl hppWhitelist k hk q

/-- Witness for C7 at a concrete query: the duplicated key "page" is collapsed
to a single occurrence while the allow-listed key "duration" keeps both its
occurrences. -/
theorem hpp_guard_contract_witness :
    (hppApply hppWhitelist
        [("page", "1"), ("page", "2"), ("duration", "5"), ("duration", "9")]).countP
        (fun p => p.1 == "page") ≤ 1 ∧
    (hppApply hppWhitelist
        [("page", "1"), ("page", "2"), ("duration", "5"), ("duration", "9")]).filter
        (fun p => p.1 == "duration") =
      [("page", "1"), ("page", "2"), ("duration", "5"), ("duration", "9")].filter
        (fun p => p.1 == "duration") := by
  exact ⟨hpp_guard_contract.2.1 _ "page" (by decide),
    hpp_guard_contract.2.2 _ "duration" (by decide)⟩

mutual

/-- Injection sanitization leaves no operator-marker key anywhere in a
structured value. -/
theorem sanitizeV_clean : ∀ v : JValue, jHasOpKey (sanitizeV v) = false
  | .leaf _ => rfl
  | .obj fs => by
      simp only [sanitizeV, jHasOpKey]
      exact sanitizeFs_clean fs

/-- Field-list part of `sanitizeV_clean`. -/
theorem sanitizeFs_clean :
    ∀ fs : List (String × JValue), fieldsHaveOpKey (sanitizeFs fs) = false
  | [] => rfl
  | (k, v) :: rest => by
      by_cases hk : k.startsWith "$" = true
      · simp only [sanitizeFs, hk, if_true]
        exact sanitizeFs_clean rest
      · have hk' : k.startsWith "$" = false := by
          cases hb : k.startsWith "$"
          · rfl
          · exact absurd hb hk
        simp only [sanitizeFs, hk', Bool.false_eq_true, if_false, fieldsHaveOpKey,
          sanitizeV_clean v, sanitizeFs_clean rest, Bool.or_false]

end

mutual

/-- Script-injection sanitization touches only string values, so it neither
introduces nor removes operator-marker keys. -/
theorem xssV_opKey : ∀ v : JValue, jHasOpKey (xssV v) = jHasOpKey v
  | .leaf _ => rfl
  | .obj fs => by
      simp only [xssV, jHasOpKey]
      exact xssFields_opKey fs

/-- Field-list part of `xssV_opKey`. -/
theorem xssFields_opKey :
    ∀ fs : List (String × JValue),
      fieldsHaveOpKey (xssFields fs) = fieldsHaveOpKey fs
  | [] => rfl
  | (k, v) :: rest => by
      simp only [xssFields, fieldsHaveOpKey, xssV_opKey v, xssFields_opKey rest]

end

/-- Injection sanitization leaves no operator-marker key in the query map. -/
theorem sanitizeQuery_clean (q : Query) : queryHasOpKey (sanitizeQuery q) = false := by
  rw [Bool.eq_false_iff]
  intro h
  rw [queryHasOpKey, List.any_eq_true] at h
  obtain ⟨kv, hkv, hs⟩ := h
  rw [sanitizeQuery, List.mem_filter] at hkv
  rw [hs] at hkv
  simp at hkv

/-- Script-injection sanitization preserves the key set of the query map. -/
theorem xssQuery_opKey (q : Query) :
    queryHasOpKey (xssQuery q) = queryHasOpKey q := by
  induction q with
  | nil => rfl
  | cons kv rest ih =>
    simp only [xssQuery, queryHasOpKey, List.map_cons, List.any_cons] at *
    rw [ih]

/-- The parameter-pollution guard only drops pairs, so it cannot introduce an
operator-marker key. -/
theorem hppApply_opKey (wl : List String) (q : Query)
    (h : queryHasOpKey q = false) : queryHasOpKey (hppApply wl q) = false := by
  rw [Bool.eq_false_iff]
  intro hcontra
  rw [queryHasOpKey, List.any_eq_true] at hcontra
  obtain ⟨kv, hkv, hs⟩ := hcontra
  have hmem : kv ∈ q := (hppApply_sublist wl q).subset hkv
  rw [Bool.eq_false_iff] at h
  apply h
  rw [queryHasOpKey, List.any_eq_true]
  exact ⟨kv, hmem, hs⟩

/-- **C5**: the sanitization stages of `src/app.js` lines 85-102 (behaviour
modelled from the spec contracts for express-mongo-sanitize, xss-clean and
hpp) never fail or short-circuit a request — each always passes control on
with a transformed context — and after they have run, in their pipeline
order, no key beginning with the reserved operator marker remains in the
structured body or the query map that the later stages and route handlers
see. -/
theorem sanitization_strips_operator_keys :
    (∀ (env : Env) (req : Request) (st : ReqState) (ls : LimiterState),
        ∃ st₁, stageStep env req .mongoSan st ls = .next st₁ ls) ∧
    (∀ (env : Env) (req : Request) (st : ReqState) (ls : LimiterState),
        ∃ st₁, stageStep env req .xssClean st ls = .next st₁ ls) ∧
    (∀ (env : Env) (req : Request) (st : ReqState) (ls : LimiterState),
        ∃ st₁, stageStep env req .hppGuard st ls = .next st₁ ls) ∧
    (∀ (env : Env) (req : Request) (st : ReqState) (ls : LimiterState)
        (st₁ st₂ st₃ : ReqState),
        stageStep env req .mongoSan st ls = .next st₁ ls →
        stageStep env req .xssClean st₁ ls = .next st₂ ls →
        stageStep env req .hppGuard st₂ ls = .next st₃ ls →
        bodyHasOpKey st₃.body = false ∧ queryHasOpKey st₃.query = false) := by
  refine ⟨fun env req st ls => ⟨_, rfl⟩, fun env req st ls => ⟨_, rfl⟩,
    fun env req st ls => ⟨_, rfl⟩, ?_⟩
  intro env req st ls st₁ st₂ st₃ h1 h2 h3
  have e1 : st₁ = { st with
      body := match st.body with
        | .parsed v => .parsed (sanitizeV v)
        | b => b,
      query := sanitizeQuery st.query } := by
    have := h1.symm.trans (rfl : stageStep env req .mongoSan st ls = _)
    injection this with hst hls
  have e2 : st₂ = { st₁ with
      body := match st₁.body with
        | .parsed v => .parsed (xssV v)
        | b => b,
      query := xssQuery st₁.query } := by
    have := h2.symm.trans (rfl : stageStep env req .xssClean st₁ ls = _)
    injection this with hst hls
  have e3 : st₃ = { st₂ with query := hppApply hppWhitelist st₂.query } := by
    have := h3.symm.trans (rfl : stageStep env req .hppGuard st₂ ls = _)
    injection this with hst hls
  subst e1 e2 e3
  constructor
  · cases hb : st.body with
    | parsed v => simp [bodyHasOpKey, hb, xssV_opKey, sanitizeV_clean]
    | unparsed bs => simp [bodyHasOpKey, hb]
    | rawBuffered bs => simp [bodyHasOpKey, hb]
  · exact hppApply_opKey _ _ (by rw [xssQuery_opKey, sanitizeQuery_clean])

/-- Witness for C5: on a concrete attack body and query, the state after the
three sanitization stages carries no operator-marker key. -/
theorem sanitization_strips_operator_keys_witness :
    bodyHasOpKey stAttack3.body = false ∧ queryHasOpKey stAttack3.query = false :=
  sanitization_strips_operator_keys.2.2.2 sampleEnv reqHome stAttack ⟨0, 0⟩
    stAttack1 stAttack2 stAttack3 rfl rfl rfl

/-- Driver unfolding: an applying stage that passes control on. -/
theorem runStages_cons_next (env : Env) (req : Request) (s : Stage) (L : List Stage)
    (st st' : ReqState) (ls ls' : LimiterState) (tr : List Stage)
    (h : stageApplies req s = true)
    (hstep : stageStep env req s st ls = .next st' ls') :
    runStages env req (s :: L) st ls tr = runStages env req L st' ls' (tr ++ [s]) := by
  simp [runStages, h, hstep]

/-- Driver unfolding: an applying stage that emits a response. -/
theorem runStages_cons_done (env : Env) (req : Request) (s : Stage) (L : List Stage)
    (st : ReqState) (ls ls' : LimiterState) (tr : List Stage) (r : Response)
    (h : stageApplies req s = true)
    (hstep : stageStep env req s st ls = .done r ls') :
    runStages env req (s :: L) st ls tr = ⟨.handled r, ls', tr ++ [s]⟩ := by
  simp [runStages, h, hstep]

/-- Driver unfolding: an applying stage that raises an error. -/
theorem runStages_cons_raise (env : Env) (req : Request) (s : Stage) (L : List Stage)
    (st : ReqState) (ls ls' : LimiterState) (tr : List Stage) (e : AppErr)
    (h : stageApplies req s = true)
    (hstep : stageStep env req s st ls = .raise e ls') :
    runStages env req (s :: L) st ls tr = ⟨.erred e, ls', tr ++ [s]⟩ := by
  simp [runStages, h, hstep]

/-- Driver unfolding: a stage that does not match the request. -/
theorem runStages_cons_skip (env : Env) (req : Request) (s : Stage) (L : List Stage)
    (st : ReqState) (ls : LimiterState) (tr : List Stage)
    (h : stageApplies req s = false) :
    runStages env req (s :: L) st ls tr = runStages env req L st ls tr := by
  simp [runStages, h]

/-- **C1**: the raw-body webhook registration (`src/app.js` lines 68-72)
strictly precedes the generic JSON body parser in the pipeline, in both
environments; consequently, for every POST request to '/webhook-checkout' (the
only requests that can reach the webhook handler), the webhook handler is
invoked with a body annotation still carrying the transport-layer bytes
unchanged — byte-identical to the raw body, and never a parsed structure. -/
theorem webhook_receives_raw_body :
    (∀ d : Bool,
        (pipeline d).indexOf Stage.webhookRaw < (pipeline d).indexOf Stage.jsonBody) ∧
    (∀ (env : Env) (ls : LimiterState) (req : Request),
        req.method = Method.POST → req.path = "/webhook-checkout" →
        ∃ b, (process env ls req).outcome = .handled (env.webhookCheckout req b) ∧
          b.bytesOf = some req.rawBody ∧ ∀ v, b ≠ BodyAnn.parsed v) := by
  constructor
  · intro d
    cases d <;> decide
  intro env ls req hm hp
  have ha_static : stageApplies req .staticFiles = true := rfl
  have ha_cors : stageApplies req .corsAll = true := rfl
  have ha_helmet : stageApplies req .helmetHeaders = true := rfl
  have ha_morgan : stageApplies req .morganLog = true := rfl
  have ha_pf : stageApplies req .corsPreflight = false := by
    simp [stageApplies, hm]
  have ha_rl : stageApplies req .rateLimiter = false := by
    show mountMatches "/api" req.path = false
    rw [hp]
    decide
  have ha_wh : stageApplies req .webhookRaw = true := by
    simp [stageApplies, hm, hp]
  have hs_static : ∀ st, stageStep env req .staticFiles st ls = .next st ls := by
    intro st
    simp [stageStep, hm]
  have hs_cors : ∀ st, stageStep env req .corsAll st ls = .next st ls := by
    intro st
    simp [stageStep, hm]
  have hs_helmet : ∀ st, stageStep env req .helmetHeaders st ls = .next st ls := by
    intro st
    rfl
  have hs_morgan : ∀ st, stageStep env req .morganLog st ls = .next st ls := by
    intro st
    rfl
  have hs_wh : ∀ st, stageStep env req .webhookRaw st ls =
      .done (env.webhookCheckout req
        (if req.contentType = "application/json"
          then .rawBuffered req.rawBody else st.body)) ls := by
    intro st
    rfl
  refine ⟨if req.contentType = "application/json"
    then .rawBuffered req.rawBody else (initState req).body, ?_, ?_, ?_⟩
  · unfold process
    cases hdev : env.isDevelopment
    · have hpl : pipeline false = .staticFiles :: .corsAll :: .corsPreflight ::
        .helmetHeaders :: .rateLimiter :: .webhookRaw :: [.jsonBody, .formBody,
        .cookieParse, .mongoSan, .xssClean, .hppGuard, .compress, .requestStamp,
        .viewRoutes, .tourRoutes, .userRoutes, .reviewRoutes, .bookingRoutes,
        .notFound, .errorFunnel] := rfl
      rw [hpl, runStages_cons_next env req _ _ _ _ _ _ _ ha_static (hs_static _),
        runStages_cons_next env req _ _ _ _ _ _ _ ha_cors (hs_cors _),
        runStages_cons_skip env req _ _ _ _ _ ha_pf,
        runStages_cons_next env req _ _ _ _ _ _ _ ha_helmet (hs_helmet _),
        runStages_cons_skip env req _ _ _ _ _ ha_rl,
        runStages_cons_done env req _ _ _ _ _ _ _ ha_wh (hs_wh _)]
    · have hpl : pipeline true = .staticFiles :: .corsAll :: .corsPreflight ::
        .helmetHeaders :: .morganLog :: .rateLimiter :: .webhookRaw :: [.jsonBody,
        .formBody, .cookieParse, .mongoSan, .xssClean, .hppGuard, .compress,
        .requestStamp, .viewRoutes, .tourRoutes, .userRoutes, .reviewRoutes,
        .bookingRoutes, .notFound, .errorFunnel] := rfl
      rw [hpl, runStages_cons_next env req _ _ _ _ _ _ _ ha_static (hs_static _),
        runStages_cons_next env req _ _ _ _ _ _ _ ha_cors (hs_cors _),
        runStages_cons_skip env req _ _ _ _ _ ha_pf,
        runStages_cons_next env req _ _ _ _ _ _ _ ha_helmet (hs_helmet _),
        runStages_cons_next env req _ _ _ _ _ _ _ ha_morgan (hs_morgan _),
        runStages_cons_skip env req _ _ _ _ _ ha_rl,
        runStages_cons_done env req _ _ _ _ _ _ _ ha_wh (hs_wh _)]
  · by_cases hct : req.contentType = "application/json"
    · simp [hct, BodyAnn.bytesOf]
    · simp [hct, initState, BodyAnn.bytesOf]
  · intro v
    by_cases hct : req.contentType = "application/json"
    · simp [hct]
    · simp [hct, initState]

/-- The outcome and the final limiter state do not depend on the trace
accumulator. -/
theorem runStages_outcome_tr_irrel (env : Env) (req : Request) :
    ∀ (L : List Stage) (st : ReqState) (ls : LimiterState) (tr tr' : List Stage),
    (runStages env req L st ls tr).outcome = (runStages env req L st ls tr').outcome := by
  intro L
  induction L with
  | nil =>
    intro st ls tr tr'
    rfl
  | cons s rest ih =>
    intro st ls tr tr'
    by_cases h : stageApplies req s = true
    · cases hstep : stageStep env req s st ls with
      | next st' ls' =>
        rw [runStages_cons_next env req _ _ _ _ _ _ _ h hstep,
          runStages_cons_next env req _ _ _ _ _ _ _ h hstep]
        exact ih st' ls' _ _
      | done r ls' =>
        rw [runStages_cons_done env req _ _ _ _ _ _ _ h hstep,
          runStages_cons_done env req _ _ _ _ _ _ _ h hstep]
      | raise e ls' =>
        rw [runStages_cons_raise env req _ _ _ _ _ _ _ h hstep,
          runStages_cons_raise env req _ _ _ _ _ _ _ h hstep]
    · have h' : stageApplies req s = false := by
        simpa using h
      rw [runStages_cons_skip env req _ _ _ _ _ h',
        runStages_cons_skip env req _ _ _ _ _ h']
      exact ih st ls tr tr'

/-- A stage whose step leaves the state and limiter unchanged does not affect
the outcome, whether or not it applies to the request. -/
theorem runStages_cons_noop_outcome (env : Env) (req : Request) (s : Stage)
    (L : List Stage) (st : ReqState) (ls : LimiterState) (tr : List Stage)
    (hstep : stageStep env req s st ls = .next st ls) :
    (runStages env req (s :: L) st ls tr).outcome =
      (runStages env req L st ls tr).outcome := by
  by_cases h : stageApplies req s = true
  · rw [runStages_cons_next env req _ _ _ _ _ _ _ h hstep]
    exact runStages_outcome_tr_irrel env req L st ls (tr ++ [s]) tr
  · rw [runStages_cons_skip env req _ _ _ _ _ (by simpa using h)]

/-- **C10**: a request to the payment-webhook path is never subject to rate
limiting: the limiter is mounted at '/api' (`src/app.js` line 65), which does
not match '/webhook-checkout', so for any environment and any prior limiter
state the limiter stage never runs on such a request and the shared counter
is left untouched. -/
theorem webhook_never_rate_limited (env : Env) (ls : LimiterState) (req : Request)
    (hp : req.path = "/webhook-checkout") :
    Stage.rateLimiter ∉ (process env ls req).trace ∧
    (process env ls req).limiter = ls := by
  have h0 : stageApplies req .rateLimiter = false := by
    show mountMatches "/api" req.path = false
    rw [hp]
    decide
  exact ⟨runStages_notApplies_notMem env req _ h0 _ _ _ _ (by simp),
    runStages_limiter_unchanged env req h0 _ _ _ _⟩

/-- Witness for C10: the concrete webhook POST leaves a half-full limiter
window untouched and the limiter stage out of its trace. -/
theorem webhook_never_rate_limited_witness :
    Stage.rateLimiter ∉ (process sampleEnv ⟨0, 50⟩ reqWebhook).trace ∧
    (process sampleEnv ⟨0, 50⟩ reqWebhook).limiter = ⟨0, 50⟩ :=
  webhook_never_rate_limited sampleEnv ⟨0, 50⟩ reqWebhook rfl

/-- Witness for C1: the concrete JSON POST to the webhook path is answered by
the webhook handler, and the raw-buffered body annotation still shows the
transport bytes. -/
theorem webhook_receives_raw_body_witness :
    (process sampleEnv ⟨0, 0⟩ reqWebhook).outcome = .handled ⟨200, "ok"⟩ ∧
    (BodyAnn.rawBuffered reqWebhook.rawBody).bytesOf = some reqWebhook.rawBody := by
  obtain ⟨b, h1, h2, h3⟩ := webhook_receives_raw_body.2 sampleEnv ⟨0, 0⟩ reqWebhook rfl rfl
  constructor
  · rw [h1]
    rfl
  · rfl

/-- **C6**: when a request reaches route dispatch — no static asset matched,
it is not an OPTIONS preflight, not the webhook POST, the rate limiter admits
it, and its body parses — and no registered router takes ownership of it (its
method and path match no router, whatever the prepared context), the pipeline
raises the `AppError` of `src/app.js` lines 123-125: a 404 whose message
echoes the requested original URL, funneled to the terminal error stage (an
`erred` outcome) rather than answered by the fallback registration itself. -/
theorem unmatched_route_404 (env : Env) (ls : LimiterState) (req : Request)
    (hstatic : env.staticFile req.path = none)
    (hopt : req.method ≠ Method.OPTIONS)
    (hwh : ¬(req.method = Method.POST ∧ req.path = "/webhook-checkout"))
    (hlim : mountMatches "/api" req.path = true →
      (limiterStep windowMs maxRequests ls req.time).2 = true)
    (hjson : req.contentType = "application/json" →
      req.rawBody.length ≤ bodyLimitBytes ∧ ∃ v, env.decodeJson req.rawBody = some v)
    (hform : req.contentType = "application/x-www-form-urlencoded" →
      req.rawBody.length ≤ bodyLimitBytes ∧ ∃ v, env.decodeForm req.rawBody = some v)
    (hview : ∀ st, env.viewRouter req st = none)
    (htour : ∀ st, env.tourRouter req st = none)
    (huser : ∀ st, env.userRouter req st = none)
    (hreview : ∀ st, env.reviewRouter req st = none)
    (hbooking : ∀ st, env.bookingRouter req st = none) :
    (process env ls req).outcome =
      .erred ⟨404, "Cannot find " ++ req.originalUrl ++ " on this server"⟩ := by
  have tail : ∀ (st0 : ReqState) (ls0 : LimiterState) (tr : List Stage),
      (runStages env req [.cookieParse, .mongoSan, .xssClean, .hppGuard, .compress,
        .requestStamp, .viewRoutes, .tourRoutes, .userRoutes, .reviewRoutes,
        .bookingRoutes, .notFound, .errorFunnel] st0 ls0 tr).outcome =
        .erred ⟨404, "Cannot find " ++ req.originalUrl ++ " on this server"⟩ := by
    intro st0 ls0 tr
    rw [runStages_cons_next env req .cookieParse _ _ _ _ _ _ rfl rfl,
      runStages_cons_next env req .mongoSan _ _ _ _ _ _ rfl rfl,
      runStages_cons_next env req .xssClean _ _ _ _ _ _ rfl rfl,
      runStages_cons_next env req .hppGuard _ _ _ _ _ _ rfl rfl,
      runStages_cons_next env req .compress _ _ _ _ _ _ rfl rfl,
      runStages_cons_next env req .requestStamp _ _ _ _ _ _ rfl rfl,
      runStages_cons_noop_outcome env req .viewRoutes _ _ _ _ (by simp [stageStep, hview]),
      runStages_cons_noop_outcome env req .tourRoutes _ _ _ _ (by simp [stageStep, htour]),
      runStages_cons_noop_outcome env req .userRoutes _ _ _ _ (by simp [stageStep, huser]),
      runStages_cons_noop_outcome env req .reviewRoutes _ _ _ _
        (by simp [stageStep, hreview]),
      runStages_cons_noop_outcome env req .bookingRoutes _ _ _ _
        (by simp [stageStep, hbooking]),
      runStages_cons_raise env req .notFound _ _ _ _ _ _ rfl rfl]
  have mid : ∀ (ls0 : LimiterState) (tr : List Stage),
      (runStages env req [.jsonBody, .formBody, .cookieParse, .mongoSan, .xssClean,
        .hppGuard, .compress, .requestStamp, .viewRoutes, .tourRoutes, .userRoutes,
        .reviewRoutes, .bookingRoutes, .notFound, .errorFunnel]
        (initState req) ls0 tr).outcome =
        .erred ⟨404, "Cannot find " ++ req.originalUrl ++ " on this server"⟩ := by
    intro ls0 tr
    by_cases hct : req.contentType = "application/json"
    · obtain ⟨hlen, v, hv⟩ := hjson hct
      have hstep1 : stageStep env req .jsonBody (initState req) ls0 =
          .next { initState req with body := .parsed v } ls0 := by
        simp [stageStep, hct, hv, Nat.not_lt.mpr hlen]
      have hct2 : req.contentType ≠ "application/x-www-form-urlencoded" := by
        rw [hct]
        decide
      have hstep2 : ∀ st1, stageStep env req .formBody st1 ls0 = .next st1 ls0 := by
        intro st1
        simp [stageStep, hct2]
      rw [runStages_cons_next env req .jsonBody _ _ _ _ _ _ rfl hstep1,
        runStages_cons_next env req .formBody _ _ _ _ _ _ rfl (hstep2 _)]
      exact tail _ _ _
    · have hstep1 : stageStep env req .jsonBody (initState req) ls0 =
          .next (initState req) ls0 := by
        simp [stageStep, hct]
      by_cases hcf : req.contentType = "application/x-www-form-urlencoded"
      · obtain ⟨hlen, v, hv⟩ := hform hcf
        have hstep2 : stageStep env req .formBody (initState req) ls0 =
            .next { initState req with body := .parsed v } ls0 := by
          simp [stageStep, hcf, hv, Nat.not_lt.mpr hlen]
        rw [runStages_cons_next env req .jsonBody _ _ _ _ _ _ rfl hstep1,
          runStages_cons_next env req .formBody _ _ _ _ _ _ rfl hstep2]
        exact tail _ _ _
      · have hstep2 : stageStep env req .formBody (initState req) ls0 =
            .next (initState req) ls0 := by
          simp [stageStep, hcf]
        rw [runStages_cons_next env req .jsonBody _ _ _ _ _ _ rfl hstep1,
          runStages_cons_next env req .formBody _ _ _ _ _ _ rfl hstep2]
        exact tail _ _ _
  have hpf : stageApplies req .corsPreflight = false := by
    simp [stageApplies, hopt]
  have hwhf : stageApplies req .webhookRaw = false := by
    by_cases h1 : req.method = Method.POST
    · have h2 : req.path ≠ "/webhook-checkout" := fun h2 => hwh ⟨h1, h2⟩
      simp [stageApplies, h2]
    · simp [stageApplies, h1]
  have hs_static : ∀ st ls0, stageStep env req .staticFiles st ls0 = .next st ls0 := by
    intro st ls0
    simp [stageStep, hstatic]
  have hs_cors : ∀ st ls0, stageStep env req .corsAll st ls0 = .next st ls0 := by
    intro st ls0
    simp [stageStep, hopt]
  have limtail : ∀ tr, (runStages env req (.rateLimiter :: .webhookRaw :: [.jsonBody,
      .formBody, .cookieParse, .mongoSan, .xssClean, .hppGuard, .compress,
      .requestStamp, .viewRoutes, .tourRoutes, .userRoutes, .reviewRoutes,
      .bookingRoutes, .notFound, .errorFunnel]) (initState req) ls tr).outcome =
      .erred ⟨404, "Cannot find " ++ req.originalUrl ++ " on this server"⟩ := by
    intro tr
    by_cases hapi : mountMatches "/api" req.path = true
    · have hstepl : stageStep env req .rateLimiter (initState req) ls =
          .next (initState req) (limiterStep windowMs maxRequests ls req.time).1 := by
        simp [stageStep, hlim hapi]
      rw [runStages_cons_next env req .rateLimiter _ _ _ _ _ _ hapi hstepl,
        runStages_cons_skip env req _ _ _ _ _ hwhf]
      exact mid _ _
    · have hapi' : stageApplies req .rateLimiter = false := by
        simpa using hapi
      rw [runStages_cons_skip env req _ _ _ _ _ hapi',
        runStages_cons_skip env req _ _ _ _ _ hwhf]
      exact mid _ _
  unfold process
  cases hdev : env.isDevelopment
  · have hpl : pipeline false = .staticFiles :: .corsAll :: .corsPreflight ::
      .helmetHeaders :: .rateLimiter :: .webhookRaw :: [.jsonBody, .formBody,
      .cookieParse, .mongoSan, .xssClean, .hppGuard, .compress, .requestStamp,
      .viewRoutes, .tourRoutes, .userRoutes, .reviewRoutes, .bookingRoutes,
      .notFound, .errorFunnel] := rfl
    rw [hpl, runStages_cons_next env req .staticFiles _ _ _ _ _ _ rfl (hs_static _ _),
      runStages_cons_next env req .corsAll _ _ _ _ _ _ rfl (hs_cors _ _),
      runStages_cons_skip env req _ _ _ _ _ hpf,
      runStages_cons_next env req .helmetHeaders _ _ _ _ _ _ rfl rfl]
    exact limtail _
  · have hpl : pipeline true = .staticFiles :: .corsAll :: .corsPreflight ::
      .helmetHeaders :: .morganLog :: .rateLimiter :: .webhookRaw :: [.jsonBody,
      .formBody, .cookieParse, .mongoSan, .xssClean, .hppGuard, .compress,
      .requestStamp, .viewRoutes, .tourRoutes, .userRoutes, .reviewRoutes,
      .bookingRoutes, .notFound, .errorFunnel] := rfl
    rw [hpl, runStages_cons_next env req .staticFiles _ _ _ _ _ _ rfl (hs_static _ _),
      runStages_cons_next env req .corsAll _ _ _ _ _ _ rfl (hs_cors _ _),
      runStages_cons_skip env req _ _ _ _ _ hpf,
      runStages_cons_next env req .helmetHeaders _ _ _ _ _ _ rfl rfl,
      runStages_cons_next env req .morganLog _ _ _ _ _ _ rfl rfl]
    exact limtail _

/-- Witness for C6: a concrete GET to an unrouted path yields the 404 error
with the path echoed, funneled to the terminal error stage. -/
theorem unmatched_route_404_witness :
    (process sampleEnv ⟨0, 0⟩ reqMissing).outcome =
      .erred ⟨404, "Cannot find " ++ reqMissing.originalUrl ++ " on this server"⟩ :=
  unmatched_route_404 sampleEnv ⟨0, 0⟩ reqMissing rfl (by decide) (by decide)
    (fun h => absurd h (by decide)) (fun h => absurd h (by decide))
    (fun h => absurd h (by decide)) (fun st => rfl) (fun st => rfl) (fun st => rfl)
    (fun st => rfl) (fun st => rfl)

/-- Anything already in the trace accumulator stays in the final trace. -/
theorem mem_trace_of_mem (env : Env) (req : Request) (L : List Stage)
    (st : ReqState) (ls : LimiterState) (tr : List Stage) (s : Stage)
    (hs : s ∈ tr) : s ∈ (runStages env req L st ls tr).trace := by
  obtain ⟨us, hus⟩ := runStages_trace_extend env req L st ls tr
  rw [hus]
  exact List.mem_append.mpr (Or.inl hs)

/-- **C9** (amended): the webhook registration of `src/app.js` lines 68-72
matches only POST requests to '/webhook-checkout', and its raw-body buffering
(express.raw with type 'application/json', modelled from the spec) replaces
the body annotation with the raw transport bytes exactly when the content type
is 'application/json' — with any other content type the handler still runs but
sees the untouched context body.  A request to that path with any other method
never triggers the webhook registration; unless an earlier stage terminates it
first (in the code, the CORS stage answers OPTIONS requests and the static
stage can serve GET/HEAD hits), it flows into the generic body-parsing stage
and the pipeline beyond it. -/
theorem webhook_registration_scope :
    (∀ req : Request, req.method ≠ Method.POST →
        stageApplies req .webhookRaw = false) ∧
    (∀ req : Request, req.path ≠ "/webhook-checkout" →
        stageApplies req .webhookRaw = false) ∧
    (∀ (env : Env) (req : Request) (st : ReqState) (ls : LimiterState),
        req.contentType = "application/json" →
        stageStep env req .webhookRaw st ls =
          .done (env.webhookCheckout req (.rawBuffered req.rawBody)) ls) ∧
    (∀ (env : Env) (req : Request) (st : ReqState) (ls : LimiterState),
        req.contentType ≠ "application/json" →
        stageStep env req .webhookRaw st ls =
          .done (env.webhookCheckout req st.body) ls) ∧
    (∀ (env : Env) (ls : LimiterState) (req : Request),
        req.path = "/webhook-checkout" → req.method ≠ Method.POST →
        req.method ≠ Method.OPTIONS → env.staticFile req.path = none →
        Stage.webhookRaw ∉ (process env ls req).trace ∧
        Stage.jsonBody ∈ (process env ls req).trace) := by
  refine ⟨?_, ?_, ?_, ?_, ?_⟩
  · intro req h
    simp [stageApplies, h]
  · intro req h
    simp [stageApplies, h]
  · intro env req st ls h
    simp [stageStep, h]
  · intro env req st ls h
    simp [stageStep, h]
  intro env ls req hp hm hopt hstatic
  have hwhf : stageApplies req .webhookRaw = false := by
    simp [stageApplies, hm]
  refine ⟨runStages_notApplies_notMem env req _ hwhf _ _ _ _ (by simp), ?_⟩
  have hs_static : ∀ st ls0, stageStep env req .staticFiles st ls0 = .next st ls0 := by
    intro st ls0
    simp [stageStep, hstatic]
  have hs_cors : ∀ st ls0, stageStep env req .corsAll st ls0 = .next st ls0 := by
    intro st ls0
    simp [stageStep, hopt]
  have hpf : stageApplies req .corsPreflight = false := by
    simp [stageApplies, hopt]
  have hrl : stageApplies req .rateLimiter = false := by
    show mountMatches "/api" req.path = false
    rw [hp]
    decide
  unfold process
  cases hdev : env.isDevelopment
  · have hpl : pipeline false = .staticFiles :: .corsAll :: .corsPreflight ::
      .helmetHeaders :: .rateLimiter :: .webhookRaw :: .jsonBody :: [.formBody,
      .cookieParse, .mongoSan, .xssClean, .hppGuard, .compress, .requestStamp,
      .viewRoutes, .tourRoutes, .userRoutes, .reviewRoutes, .bookingRoutes,
      .notFound, .errorFunnel] := rfl
    rw [hpl, runStages_cons_next env req .staticFiles _ _ _ _ _ _ rfl (hs_static _ _),
      runStages_cons_next env req .corsAll _ _ _ _ _ _ rfl (hs_cors _ _),
      runStages_cons_skip env req _ _ _ _ _ hpf,
      runStages_cons_next env req .helmetHeaders _ _ _ _ _ _ rfl rfl,
      runStages_cons_skip env req _ _ _ _ _ hrl,
      runStages_cons_skip env req _ _ _ _ _ hwhf]
    cases hstep : stageStep env req .jsonBody (initState req) ls with
    | next st' ls' =>
      rw [runStages_cons_next env req .jsonBody _ _ _ _ _ _ rfl hstep]
      exact mem_trace_of_mem env req _ _ _ _ _ (by simp)
    | done r ls' =>
      rw [runStages_cons_done env req .jsonBody _ _ _ _ _ _ rfl hstep]
      simp
    | raise e ls' =>
      rw [runStages_cons_raise env req .jsonBody _ _ _ _ _ _ rfl hstep]
      simp
  · have hpl : pipeline true = .staticFiles :: .corsAll :: .corsPreflight ::
      .helmetHeaders :: .morganLog :: .rateLimiter :: .webhookRaw :: .jsonBody ::
      [.formBody, .cookieParse, .mongoSan, .xssClean, .hppGuard, .compress,
      .requestStamp, .viewRoutes, .tourRoutes, .userRoutes, .reviewRoutes,
      .bookingRoutes, .notFound, .errorFunnel] := rfl
    rw [hpl, runStages_cons_next env req .staticFiles _ _ _ _ _ _ rfl (hs_static _ _),
      runStages_cons_next env req .corsAll _ _ _ _ _ _ rfl (hs_cors _ _),
      runStages_cons_skip env req _ _ _ _ _ hpf,
      runStages_cons_next env req .helmetHeaders _ _ _ _ _ _ rfl rfl,
      runStages_cons_next env req .morganLog _ _ _ _ _ _ rfl rfl,
      runStages_cons_skip env req _ _ _ _ _ hrl,
      runStages_cons_skip env req _ _ _ _ _ hwhf]
    cases hstep : stageStep env req .jsonBody (initState req) ls with
    | next st' ls' =>
      rw [runStages_cons_next env req .jsonBody _ _ _ _ _ _ rfl hstep]
      exact mem_trace_of_mem env req _ _ _ _ _ (by simp)
    | done r ls' =>
      rw [runStages_cons_done env req .jsonBody _ _ _ _ _ _ rfl hstep]
      simp
    | raise e ls' =>
      rw [runStages_cons_raise env req .jsonBody _ _ _ _ _ _ rfl hstep]
      simp

/-- Witness for C9: a GET to the webhook path does not trigger the webhook
registration and does flow into the JSON body-parsing stage. -/
theorem webhook_registration_scope_witness :
    stageApplies reqWebhookGet .webhookRaw = false ∧
    (Stage.webhookRaw ∉ (process sampleEnv ⟨0, 0⟩ reqWebhookGet).trace ∧
      Stage.jsonBody ∈ (process sampleEnv ⟨0, 0⟩ reqWebhookGet).trace) :=
  ⟨webhook_registration_scope.1 reqWebhookGet (by decide),
    webhook_registration_scope.2.2.2.2 sampleEnv ⟨0, 0⟩ reqWebhookGet rfl (by decide)
      (by decide) rfl⟩

/-- Counterexample to C9 as frozen: an OPTIONS request to '/webhook-checkout'
is not handled by the webhook registration, but it does not flow through the
generic body parsers either — the CORS stage terminates it with 204 before any
parser runs. -/
theorem webhook_nonpost_counterexample :
    reqWebhookOptions.path = "/webhook-checkout" ∧
    reqWebhookOptions.method ≠ Method.POST ∧
    (process sampleEnv ⟨0, 0⟩ reqWebhookOptions).outcome = .handled ⟨204, ""⟩ ∧
    Stage.jsonBody ∉ (process sampleEnv ⟨0, 0⟩ reqWebhookOptions).trace := by
  refine ⟨rfl, by decide, by decide, by decide⟩

/-- **C4** (amended): the generic body parsers of `src/app.js` lines 76-81
(behaviour modelled from the spec contract: parse JSON and URL-encoded bodies
capped at 10 KB, failing oversized or malformed payloads with a client error
instead of crashing).  A body within the cap whose decode succeeds makes the
parsed structure available to all later stages; a body over the cap raises a
413 client error.  At pipeline level: a request with a JSON body over the cap
that actually reaches the generic parsing stage — not a static hit, not an
OPTIONS preflight, not the raw-webhook POST, and admitted by the rate
limiter — ends in the 413 error funneled to the terminal error stage, with no
route-dispatch stage and no webhook registration ever entering the trace. -/
theorem body_parsing_contract :
    (∀ (env : Env) (req : Request) (st : ReqState) (ls : LimiterState) (v : JValue),
        req.contentType = "application/json" →
        req.rawBody.length ≤ bodyLimitBytes →
        env.decodeJson req.rawBody = some v →
        stageStep env req .jsonBody st ls = .next { st with body := .parsed v } ls) ∧
    (∀ (env : Env) (req : Request) (st : ReqState) (ls : LimiterState) (v : JValue),
        req.contentType = "application/x-www-form-urlencoded" →
        req.rawBody.length ≤ bodyLimitBytes →
        env.decodeForm req.rawBody = some v →
        stageStep env req .formBody st ls = .next { st with body := .parsed v } ls) ∧
    (∀ (env : Env) (req : Request) (st : ReqState) (ls : LimiterState),
        req.contentType = "application/json" →
        bodyLimitBytes < req.rawBody.length →
        stageStep env req .jsonBody st ls =
          .raise ⟨413, "request entity too large"⟩ ls) ∧
    (∀ (env : Env) (req : Request) (st : ReqState) (ls : LimiterState),
        req.contentType = "application/x-www-form-urlencoded" →
        bodyLimitBytes < req.rawBody.length →
        stageStep env req .formBody st ls =
          .raise ⟨413, "request entity too large"⟩ ls) ∧
    (∀ (env : Env) (ls : LimiterState) (req : Request),
        req.contentType = "application/json" →
        bodyLimitBytes < req.rawBody.length →
        env.staticFile req.path = none →
        req.method ≠ Method.OPTIONS →
        ¬(req.method = Method.POST ∧ req.path = "/webhook-checkout") →
        (mountMatches "/api" req.path = true →
          (limiterStep windowMs maxRequests ls req.time).2 = true) →
        (process env ls req).outcome = .erred ⟨413, "request entity too large"⟩ ∧
        ∀ s ∈ (process env ls req).trace,
          specStageOf s ≠ SpecStage.sRoute ∧ s ≠ Stage.webhookRaw) := by
  refine ⟨?_, ?_, ?_, ?_, ?_⟩
  · intro env req st ls v hct hlen hv
    simp [stageStep, hct, hv, Nat.not_lt.mpr hlen]
  · intro env req st ls v hct hlen hv
    simp [stageStep, hct, hv, Nat.not_lt.mpr hlen]
  · intro env req st ls hct hlen
    simp [stageStep, hct, hlen]
  · intro env req st ls hct hlen
    simp [stageStep, hct, hlen]
  intro env ls req hct hlen hstatic hopt hwh hlim
  have hpf : stageApplies req .corsPreflight = false := by
    simp [stageApplies, hopt]
  have hwhf : stageApplies req .webhookRaw = false := by
    by_cases h1 : req.method = Method.POST
    · have h2 : req.path ≠ "/webhook-checkout" := fun h2 => hwh ⟨h1, h2⟩
      simp [stageApplies, h2]
    · simp [stageApplies, h1]
  have hs_static : ∀ st ls0, stageStep env req .staticFiles st ls0 = .next st ls0 := by
    intro st ls0
    simp [stageStep, hstatic]
  have hs_cors : ∀ st ls0, stageStep env req .corsAll st ls0 = .next st ls0 := by
    intro st ls0
    simp [stageStep, hopt]
  have hstepj : ∀ (st : ReqState) (ls0 : LimiterState),
      stageStep env req .jsonBody st ls0 =
        .raise ⟨413, "request entity too large"⟩ ls0 := by
    intro st ls0
    simp [stageStep, hct, hlen]
  unfold process
  cases hdev : env.isDevelopment
  · have hpl : pipeline false = .staticFiles :: .corsAll :: .corsPreflight ::
      .helmetHeaders :: .rateLimiter :: .webhookRaw :: .jsonBody :: [.formBody,
      .cookieParse, .mongoSan, .xssClean, .hppGuard, .compress, .requestStamp,
      .viewRoutes, .tourRoutes, .userRoutes, .reviewRoutes, .bookingRoutes,
      .notFound, .errorFunnel] := rfl
    rw [hpl, runStages_cons_next env req .staticFiles _ _ _ _ _ _ rfl (hs_static _ _),
      runStages_cons_next env req .corsAll _ _ _ _ _ _ rfl (hs_cors _ _),
      runStages_cons_skip env req _ _ _ _ _ hpf,
      runStages_cons_next env req .helmetHeaders _ _ _ _ _ _ rfl rfl]
    by_cases hapi : mountMatches "/api" req.path = true
    · have hstepl : ∀ st : ReqState, stageStep env req .rateLimiter st ls =
          .next st (limiterStep windowMs maxRequests ls req.time).1 := by
        intro st
        simp [stageStep, hlim hapi]
      rw [runStages_cons_next env req .rateLimiter _ _ _ _ _ _ hapi (hstepl _),
        runStages_cons_skip env req _ _ _ _ _ hwhf,
        runStages_cons_raise env req .jsonBody _ _ _ _ _ _ rfl (hstepj _ _)]
      refine ⟨rfl, ?_⟩
      intro s hs
      fin_cases hs <;> exact ⟨by decide, by decide⟩
    · have hapi' : stageApplies req .rateLimiter = false := by
        simpa using hapi
      rw [runStages_cons_skip env req _ _ _ _ _ hapi',
        runStages_cons_skip env req _ _ _ _ _ hwhf,
        runStages_cons_raise env req .jsonBody _ _ _ _ _ _ rfl (hstepj _ _)]
      refine ⟨rfl, ?_⟩
      intro s hs
      fin_cases hs <;> exact ⟨by decide, by decide⟩
  · have hpl : pipeline true = .staticFiles :: .corsAll :: .corsPreflight ::
      .helmetHeaders :: .morganLog :: .rateLimiter :: .webhookRaw :: .jsonBody ::
      [.formBody, .cookieParse, .mongoSan, .xssClean, .hppGuard, .compress,
      .requestStamp, .viewRoutes, .tourRoutes, .userRoutes, .reviewRoutes,
      .bookingRoutes, .notFound, .errorFunnel] := rfl
    rw [hpl, runStages_cons_next env req .staticFiles _ _ _ _ _ _ rfl (hs_static _ _),
      runStages_cons_next env req .corsAll _ _ _ _ _ _ rfl (hs_cors _ _),
      runStages_cons_skip env req _ _ _ _ _ hpf,
      runStages_cons_next env req .helmetHeaders _ _ _ _ _ _ rfl rfl,
      runStages_cons_next env req .morganLog _ _ _ _ _ _ rfl rfl]
    by_cases hapi : mountMatches "/api" req.path = true
    · have hstepl : ∀ st : ReqState, stageStep env req .rateLimiter st ls =
          .next st (limiterStep windowMs maxRequests ls req.time).1 := by
        intro st
        simp [stageStep, hlim hapi]
      rw [runStages_cons_next env req .rateLimiter _ _ _ _ _ _ hapi (hstepl _),
        runStages_cons_skip env req _ _ _ _ _ hwhf,
        runStages_cons_raise env req .jsonBody _ _ _ _ _ _ rfl (hstepj _ _)]
      refine ⟨rfl, ?_⟩
      intro s hs
      fin_cases hs <;> exact ⟨by decide, by decide⟩
    · have hapi' : stageApplies req .rateLimiter = false := by
        simpa using hapi
      rw [runStages_cons_skip env req _ _ _ _ _ hapi',
        runStages_cons_skip env req _ _ _ _ _ hwhf,
        runStages_cons_raise env req .jsonBody _ _ _ _ _ _ rfl (hstepj _ _)]
      refine ⟨rfl, ?_⟩
      intro s hs
      fin_cases hs <;> exact ⟨by decide, by decide⟩

/-- Witness for C4: the oversized JSON POST to '/big' ends in the 413 error,
and a small JSON POST is parsed into the context for downstream stages. -/
theorem body_parsing_contract_witness :
    (process sampleEnv ⟨0, 0⟩ reqBigJson).outcome =
      .erred ⟨413, "request entity too large"⟩ ∧
    stageStep sampleEnv reqSmallJson .jsonBody (initState reqSmallJson) ⟨0, 0⟩ =
      .next { initState reqSmallJson with body := .parsed (JValue.obj []) } ⟨0, 0⟩ := by
  constructor
  · exact (body_parsing_contract.2.2.2.2 sampleEnv ⟨0, 0⟩ reqBigJson rfl
      (by norm_num [bodyLimitBytes, reqBigJson]) rfl (by decide) (by decide)
      (fun h => absurd h (by decide))).1
  · exact body_parsing_contract.1 sampleEnv reqSmallJson (initState reqSmallJson) ⟨0, 0⟩
      (JValue.obj []) rfl (by norm_num [bodyLimitBytes, reqSmallJson]) rfl

/-- Counterexample to C4 as frozen: a JSON POST to '/webhook-checkout' whose
body is 10241 bytes — over the 10 KB cap — does not fail with a client error:
the raw-body webhook registration, which precedes the generic parsers and
carries no 10 KB cap, handles it, so a route handler is reached. -/
theorem body_cap_counterexample :
    bodyLimitBytes < reqWebhookBig.rawBody.length ∧
    (process sampleEnv ⟨0, 0⟩ reqWebhookBig).outcome = .handled ⟨200, "ok"⟩ ∧
    Stage.webhookRaw ∈ (process sampleEnv ⟨0, 0⟩ reqWebhookBig).trace := by
  refine ⟨by norm_num [bodyLimitBytes, reqWebhookBig], rfl, by decide⟩

end Natours
